import Mathlib

/-!
Shallow embedding of the caching decision engine of `requests-cache`
(`src/requests_cache/core.py` and the backend fragments under
`src/requests_cache/backends/`), together with theorems checking the
natural-language specification against it.

Conventions of the embedding:
* Python floats and `datetime`/`timedelta` arithmetic are modelled by `ℚ`
  (times are seconds on an absolute axis, exact comparison as in the code).
* Python `dict` is modelled by an association list with first-match lookup,
  whole-key replacement on assignment (`alistSet`) and removal (`alistRemove`).
* `urlparse` (Python standard library, external to the repository) is
  modelled by taking URLs as already split into `netloc` and `path`.
* Raised exceptions are modelled by `Except`; the mutable session object is
  threaded explicitly.
* The backend base class (`BaseCache`: `create_key`, `get_response_and_time`,
  `save_response`, `delete`, `add_key_mapping`) is not among the source
  files; it is modelled from the spec where a claim needs it, each such
  definition marked `Modelled from the spec:`.
-/

namespace RequestsCache

/-- Equality of `Except` results is decidable; used to evaluate the
embedding at concrete inputs. -/
instance {ε α : Type} [DecidableEq ε] [DecidableEq α] : DecidableEq (Except ε α) :=
  fun a b =>
    match a, b with
    | .ok x, .ok y => if h : x = y then .isTrue (by rw [h]) else .isFalse (by simp [h])
    | .error e, .error f => if h : e = f then .isTrue (by rw [h]) else .isFalse (by simp [h])
    | .ok _, .error _ => .isFalse (by simp)
    | .error _, .ok _ => .isFalse (by simp)

/-! ## Association-list model of Python dict -/

/-- First-match lookup in an association list (Python `dict.get`). -/
def alistGet {κ : Type} {α : Type} [DecidableEq κ] : List (κ × α) → κ → Option α
  | [], _ => none
  | (k', v) :: rest, k => if k' = k then some v else alistGet rest k

/-- Replace the binding of `k` (or add it at the end): Python `d[k] = v`. -/
def alistSet {κ : Type} {α : Type} [DecidableEq κ] : List (κ × α) → κ → α → List (κ × α)
  | [], k, v => [(k, v)]
  | (k', v') :: rest, k, v =>
      if k' = k then (k, v) :: rest else (k', v') :: alistSet rest k v

/-- Remove every binding of `k`: Python `del d[k]` on a dict. -/
def alistRemove {κ : Type} {α : Type} [DecidableEq κ] : List (κ × α) → κ → List (κ × α)
  | [], _ => []
  | (k', v') :: rest, k =>
      if k' = k then alistRemove rest k else (k', v') :: alistRemove rest k

/-! ## Strings and URLs -/

/-- Character-by-character prefix test, used for Python `s.startswith(p)`:
`startswith s p = true` iff `p` is a string prefix of `s`. -/
def startswithAux : List Char → List Char → Bool
  | _, [] => true
  | [], _ :: _ => false
  | c :: cs, d :: ds => c = d && startswithAux cs ds

/-- Python `s.startswith(p)`. -/
def startswith (s p : String) : Bool := startswithAux s.data p.data

/-- A URL as returned by `urlparse`: the fields the engine consults. -/
structure Url where
  netloc : String
  path : String
deriving DecidableEq, Repr

/-! ## Session state (`CachedSession.__init__`, the fields the claims use) -/

/-- The mutable state of a `CachedSession` relevant to policy resolution and
dispatch.  Field names follow `core.py` with the leading underscore and
`_cache` prefixes kept as in the source (Lean forbids a leading `_`).
`cache_expire_after : Option ℚ` models `None` / a float; Python truthiness
(`not self._cache_expire_after`) is false for `none` and for `some 0`. -/
structure CachedSession where
  cache_expire_after : Option ℚ
  cache_expire_after_override : List (String × List (String × ℚ))
  cache_throttle : List (String × List (String × ℚ))
  allowable_codes : List Nat
  allowable_methods : List String
  is_cache_disabled : Bool
deriving DecidableEq, Repr

/-- The exceptions raised by the engine (`raise ValueError` in
`expire_after` / `throttle`). -/
inductive PyError where
  | valueError
deriving DecidableEq, Repr

/-- `a.sort(key=lambda t: len(t[0]), reverse=True)`: stable sort of a rule
list by descending prefix length. -/
def sortRules (a : List (String × ℚ)) : List (String × ℚ) :=
  a.insertionSort (fun t u => u.1.length ≤ t.1.length)

/-! ## Policy registration and lookup (`core.py` lines 152-213) -/

/-- `CachedSession.expire_after(url, expire_after)` (core.py 152-172).
Returns the new session state and the Python return value.
Mirrors the source:
* `if not self._cache_expire_after: return None`
* `if expire_after > self._cache_expire_after or expire_after < 0: raise ValueError`
* `a = self._cache_expire_after_override[p_url.netloc] = []` — the host's
  rule list is reset to a fresh empty list before the append. -/
def expire_after (s : CachedSession) (url : Url) (v : ℚ) :
    Except PyError (CachedSession × Option ℚ) :=
  match s.cache_expire_after with
  | none => .ok (s, none)
  | some d =>
    if d = 0 then .ok (s, none)
    else if v > d ∨ v < 0 then .error .valueError
    else
      let a := sortRules [(url.path, v)]
      .ok ({ s with cache_expire_after_override :=
               alistSet s.cache_expire_after_override url.netloc a },
           some v)

/-- `CachedSession._lookup_expire_after(url)` (core.py 174-184). -/
def lookup_expire_after (s : CachedSession) (url : Url) : Option ℚ :=
  match s.cache_expire_after with
  | none => none
  | some d =>
    if d = 0 then none
    else
      let a := (alistGet s.cache_expire_after_override url.netloc).getD []
      match a.find? (fun pv => startswith url.path pv.1) with
      | some pv => some pv.2
      | none => some d

/-- `CachedSession.throttle(url, requests_per_second)` (core.py 186-204).
`float(requests_per_second)` is the identity on `ℚ`.  As in
`expire_after`, the host's rule list is reset before the append. -/
def throttle (s : CachedSession) (url : Url) (rps : ℚ) :
    Except PyError (CachedSession × ℚ) :=
  if rps < 0 ∨ rps > 1000 then .error .valueError
  else
    let a := sortRules [(url.path, rps)]
    .ok ({ s with cache_throttle := alistSet s.cache_throttle url.netloc a }, rps)

/-- `CachedSession._lookup_throttle(url)` (core.py 206-213). -/
def lookup_throttle (s : CachedSession) (url : Url) : Option ℚ :=
  let a := (alistGet s.cache_throttle url.netloc).getD []
  match a.find? (fun pv => startswith url.path pv.1) with
  | some pv => some pv.2
  | none => none

/-! ## Requests, responses and the backend interface -/

/-- A prepared request: the fields `send`/`request` consult
(`request.method`, `request.url`). -/
structure Request where
  method : String
  url : Url
deriving DecidableEq, Repr

/-- An entry of `response.history`: the dispatcher reads only `r.request`
of each intermediate response. -/
structure HistoryItem where
  request : Request
deriving DecidableEq, Repr

/-- A response as the dispatcher sees it: status code, the (final) request
that produced it and the redirect history. -/
structure Response where
  status_code : Nat
  request : Request
  history : List HistoryItem
deriving DecidableEq, Repr

/-- A backend failure raised by `get` (spec taxonomy: `StorageFailure`);
carries an opaque payload so that "propagates unchanged" is observable. -/
structure StorageFailure where
  msg : String
deriving DecidableEq, Repr

/-- The duck-typed interface of `self.cache` as `core.py` uses it: `σ` is
the backend's state, `κ` the cache-key type.  `get_response_and_time` may
raise a `StorageFailure`; the other operations return the new backend
state.  `save_response` timestamps the entry with the backend's own clock,
so the instance (not the dispatcher) carries the store time. -/
structure Cache (σ κ : Type) where
  create_key : Request → κ
  get_response_and_time : σ → κ → Except StorageFailure (Option (Response × ℚ))
  save_response : σ → κ → Response → σ
  delete : σ → κ → σ
  add_key_mapping : σ → κ → κ → σ

/-! ## Dispatch (`CachedSession.send`, core.py 76-115) -/

/-- The observable outcome of one `send`: the returned response with its
`from_cache` mark, the backend state afterwards, the seconds slept by
`wait_for_throttle` and whether the external transport
(`super().send`) was invoked. -/
structure SendOutcome (σ : Type) where
  response : Response
  from_cache : Bool
  store : σ
  waited : ℚ
  transport_invoked : Bool
deriving DecidableEq, Repr

/-- `wait_for_throttle` (core.py 85-91): the seconds slept before the
transport call — `1 / rate` when a throttle rate is resolved and positive,
otherwise no wait. -/
def wait_for_throttle (s : CachedSession) (url : Url) : ℚ :=
  match lookup_throttle s url with
  | some rps => if rps > 0 then 1 / rps else 0
  | none => 0

/-- `send_request_and_cache_response` (core.py 93-99): throttle wait,
transport call (its response is the `transport` argument), conditional
`save_response`, `from_cache = False`. -/
def send_request_and_cache_response {σ κ : Type} (s : CachedSession) (c : Cache σ κ)
    (st : σ) (cache_key : κ) (request : Request) (transport : Response) :
    SendOutcome σ :=
  let waited := wait_for_throttle s request.url
  let st' := if transport.status_code ∈ s.allowable_codes
             then c.save_response st cache_key transport else st
  { response := transport, from_cache := false, store := st',
    waited := waited, transport_invoked := true }

/-- `CachedSession.send(request)` (core.py 76-115).  `transport` is the
response the external transport (`super().send`) would return; `now` is
`datetime.utcnow()` at the freshness check.  The response-hook dispatch of
the hit path (a pass-through re-registration, line 114) is not modelled. -/
def send {σ κ : Type} (s : CachedSession) (c : Cache σ κ) (st : σ)
    (request : Request) (transport : Response) (now : ℚ) :
    Except StorageFailure (SendOutcome σ) :=
  if s.is_cache_disabled ∨ request.method ∉ s.allowable_methods then
    .ok { response := transport, from_cache := false, store := st,
          waited := 0, transport_invoked := true }
  else
    let cache_key := c.create_key request
    match c.get_response_and_time st cache_key with
    | .error e => .error e
    | .ok none => .ok (send_request_and_cache_response s c st cache_key request transport)
    | .ok (some (response, timestamp)) =>
      match lookup_expire_after s request.url with
      | some ea =>
        if now - timestamp > ea then
          let st' := c.delete st cache_key
          .ok (send_request_and_cache_response s c st' cache_key request transport)
        else
          .ok { response := response, from_cache := true, store := st,
                waited := 0, transport_invoked := false }
      | none =>
        .ok { response := response, from_cache := true, store := st,
              waited := 0, transport_invoked := false }

/-- `CachedSession.request(...)` (core.py 117-134), after the inner
`super().request` call already produced `response`: when caching is not
disabled, register every intermediate request's key as an alias of the
final request's key. -/
def request {σ κ : Type} (s : CachedSession) (c : Cache σ κ) (st : σ)
    (response : Response) : σ :=
  if s.is_cache_disabled then st
  else
    let main_key := c.create_key response.request
    response.history.foldl
      (fun acc r => c.add_key_mapping acc (c.create_key r.request) main_key) st

/-! ## `cache_disabled` context manager (core.py 136-150) -/

/-- `CachedSession.cache_disabled()`: sets `_is_cache_disabled = True`,
runs the body (which mutates the session and either returns normally or
raises — modelled by `CachedSession × Except ε Unit`), and in the
`finally` clause resets `_is_cache_disabled = False` before the result or
exception reaches the caller. -/
def cache_disabled {ε : Type} (s : CachedSession)
    (body : CachedSession → CachedSession × Except ε Unit) :
    CachedSession × Except ε Unit :=
  let s1 := { s with is_cache_disabled := true }
  let (s2, r) := body s1
  ({ s2 with is_cache_disabled := false }, r)

/-! ## Spec-modelled cache store -/

/-- Modelled from the spec: the `CacheStore` contract of §4.3 / §3
(`BaseCache` and its `responses` / `keys_map` dictionaries are not among
the source files — only `core.py` and the Mongo/Redis backend shells are).
Responses map cache keys to (response, stored-at); `keys_map` maps alias
keys to canonical keys. -/
structure Store (κ : Type) where
  responses : List (κ × (Response × ℚ))
  keys_map : List (κ × κ)
deriving DecidableEq, Repr

/-- Modelled from the spec: `resolve_alias(key) -> canonical_key | key`
("a key with no alias resolves to itself", §4.3). -/
def Store.resolve_alias {κ : Type} [DecidableEq κ] (st : Store κ) (k : κ) : κ :=
  (alistGet st.keys_map k).getD k

/-- Modelled from the spec: lookup — "Lookups first resolve through
AliasMap before querying CacheEntry storage" (§3); absence is a normal
`none`, not a failure (§4.3). -/
def Store.lookup {κ : Type} [DecidableEq κ] (st : Store κ) (k : κ) :
    Option (Response × ℚ) :=
  alistGet st.responses (st.resolve_alias k)

/-- Modelled from the spec: `put(key, payload, stored_at)` — upsert (§4.3). -/
def Store.put {κ : Type} [DecidableEq κ] (st : Store κ) (k : κ) (r : Response)
    (t : ℚ) : Store κ :=
  { st with responses := alistSet st.responses k (r, t) }

/-- Modelled from the spec: `delete(key)`; see also `cacheDelete` below. -/
def Store.erase {κ : Type} [DecidableEq κ] (st : Store κ) (k : κ) : Store κ :=
  { st with responses := alistRemove st.responses k }

/-- Modelled from the spec: `add_alias(alias_key, canonical_key)` (§4.3). -/
def Store.add_alias {κ : Type} [DecidableEq κ] (st : Store κ) (k mk : κ) : Store κ :=
  { st with keys_map := alistSet st.keys_map k mk }

/-- The spec-modelled store packaged as the duck-typed `self.cache`
interface that `core.py` calls; `ck` is the key-derivation function and
`stored_now` the backend clock used by `save_response`. -/
def specCache {κ : Type} [DecidableEq κ] (ck : Request → κ) (stored_now : ℚ) :
    Cache (Store κ) κ :=
  { create_key := ck,
    get_response_and_time := fun st k => .ok (st.lookup k),
    save_response := fun st k r => st.put k r stored_now,
    delete := fun st k => st.erase k,
    add_key_mapping := fun st k mk => st.add_alias k mk }

/-! ## Mongo backend delete (`mongodict.py` 49-54) -/

/-- The raised-`KeyError` signal of `MongoDict.__delitem__`. -/
inductive KeyError where
  | keyError
deriving DecidableEq, Repr

/-- `MongoDict.__delitem__(key)` (mongodict.py 49-54): if a document with
this `_id` exists, remove it; otherwise `raise KeyError`.  The collection
is modelled as an association list keyed by `_id`. -/
def mongoDelItem {α : Type} (m : List (String × α)) (k : String) :
    Except KeyError (List (String × α)) :=
  if (alistGet m k).isSome then .ok (alistRemove m k) else .error .keyError

/-- Modelled from the spec: `BaseCache.delete` (not among the source
files) — "absence of the key is NOT an error for the Dispatcher's use
(idempotent from the Dispatcher's perspective), though a backend may
choose to signal it internally" (§4.3): the backend-level `KeyError` is
swallowed. -/
def cacheDelete {α : Type} (m : List (String × α)) (k : String) :
    List (String × α) :=
  match mongoDelItem m k with
  | .ok m' => m'
  | .error _ => m

/-! ## Concrete instances used to evaluate the embedding -/

/-- A sample session: global default expiration 300 s, the constructor
defaults `allowable_codes=(200,)`, `allowable_methods=('GET',)`, no
overrides, caching enabled. -/
def exSession : CachedSession :=
  { cache_expire_after := some 300, cache_expire_after_override := [],
    cache_throttle := [], allowable_codes := [200],
    allowable_methods := ["GET"], is_cache_disabled := false }

/-- `exSession` after `expire_after(("h", "/api"), 10)`. -/
def exRegSession1 : CachedSession :=
  { exSession with cache_expire_after_override := [("h", [("/api", 10)])] }

/-- `exRegSession1` after `expire_after(("h", "/zzz"), 20)`: the `/api`
rule has been discarded by the reset of the host's rule list. -/
def exRegSession2 : CachedSession :=
  { exSession with cache_expire_after_override := [("h", [("/zzz", 20)])] }

/-- `exSession` after `throttle(("h", "/api"), 2)`. -/
def exThrottleSession : CachedSession :=
  { exSession with cache_throttle := [("h", [("/api", 2)])] }

/-- A sample key-derivation function (stands for `BaseCache.create_key`,
which is not among the source files): here simply the request's path. -/
def exCk : Request → String := fun r => r.url.path

/-- A sample GET request to `http://h/api/x`. -/
def exReq : Request := { method := "GET", url := { netloc := "h", path := "/api/x" } }

/-- The response stored in the cache for `exReq`. -/
def exStoredResp : Response := { status_code := 200, request := exReq, history := [] }

/-- The response the external transport would return for `exReq`. -/
def exTransportResp : Response := { status_code := 200, request := exReq, history := [] }

/-- A store holding `exStoredResp` under `exReq`'s key, stored at time 0. -/
def exStore : Store String :=
  { responses := [("/api/x", (exStoredResp, 0))], keys_map := [] }

/-- A backend whose `get` raises `StorageFailure "backend down"`. -/
def exFailCache : Cache (Store String) String :=
  { specCache exCk 0 with
    get_response_and_time := fun _ _ => .error { msg := "backend down" } }

/-- An empty store. -/
def exEmptyStore : Store String := { responses := [], keys_map := [] }

/-- A redirect chain: intermediate hops `A` (`/start`) and `B` (`/hop`). -/
def exHopA : HistoryItem :=
  { request := { method := "GET", url := { netloc := "h", path := "/start" } } }

/-- Second intermediate hop of the redirect chain. -/
def exHopB : HistoryItem :=
  { request := { method := "GET", url := { netloc := "h", path := "/hop" } } }

/-- The final response of the redirect chain `[A, B] → C` (`/final`). -/
def exRedirResp : Response :=
  { status_code := 200,
    request := { method := "GET", url := { netloc := "h", path := "/final" } },
    history := [exHopA, exHopB] }

/-- A store holding the redirect chain's final response under `/final`. -/
def exRedirStore : Store String :=
  { responses := [("/final", (exRedirResp, 0))], keys_map := [] }

/-- `exRedirStore` after the dispatcher registered the aliases for the
redirect chain `[/start, /hop] → /final`. -/
def exAliasedStore : Store String :=
  { responses := [("/final", (exRedirResp, 0))],
    keys_map := [("/start", "/final"), ("/hop", "/final")] }

/-! ## Helper lemmas on the dict model -/

theorem alistGet_set_self {κ α : Type} [DecidableEq κ] (m : List (κ × α)) (k : κ)
    (v : α) : alistGet (alistSet m k v) k = some v := by
  induction m with
  | nil => simp [alistSet, alistGet]
  | cons p rest ih =>
    by_cases h : p.1 = k
    · simp [alistSet, h, alistGet]
    · simp [alistSet, h, alistGet, ih]

theorem alistGet_set_ne {κ α : Type} [DecidableEq κ] (m : List (κ × α)) (k k' : κ)
    (v : α) (h : k' ≠ k) : alistGet (alistSet m k v) k' = alistGet m k' := by
  induction m with
  | nil => simp [alistSet, alistGet, Ne.symm h]
  | cons p rest ih =>
    by_cases hp : p.1 = k
    · simp [alistSet, hp, alistGet, Ne.symm h]
    · simp [alistSet, hp, alistGet, ih]

theorem alistGet_remove_self {κ α : Type} [DecidableEq κ] (m : List (κ × α))
    (k : κ) : alistGet (alistRemove m k) k = none := by
  induction m with
  | nil => simp [alistRemove, alistGet]
  | cons p rest ih =>
    by_cases h : p.1 = k
    · simp [alistRemove, h, ih]
    · simp [alistRemove, h, alistGet, ih]

theorem sortRules_singleton (x : String × ℚ) : sortRules [x] = [x] := rfl

/-! ## Claim theorems -/

/-- C9: `cache_disabled` runs its body on a session whose
`_is_cache_disabled` flag is `True`, and on every exit path — a body that
returns normally or one that raises — the session it leaves behind has
`_is_cache_disabled = False`, with the body's result or exception passed
through unchanged. -/
theorem C9_cache_disabled_reenables {ε : Type} :
    ∀ (s : CachedSession) (body : CachedSession → CachedSession × Except ε Unit),
      (cache_disabled s body).1.is_cache_disabled = false
      ∧ (cache_disabled s body).1 =
          { (body { s with is_cache_disabled := true }).1 with is_cache_disabled := false }
      ∧ (cache_disabled s body).2 = (body { s with is_cache_disabled := true }).2 := by
  intro s body
  refine ⟨?_, ?_, ?_⟩ <;> simp [cache_disabled]

/-- C10: when the session's global default expiration is unset (`None` or
zero, both falsy in `not self._cache_expire_after`), `expire_after(url, v)`
returns `None` without touching the session state and without validating
`v` — even `v = -1` is accepted silently, no `ValueError` is raised. -/
theorem C10_expire_after_noop_without_default (s : CachedSession) (url : Url)
    (v : ℚ) (h : s.cache_expire_after = none ∨ s.cache_expire_after = some 0) :
    expire_after s url v = .ok (s, none) := by
  rcases h with h | h <;> simp [expire_after, h]

/-- Witness for C10: with no global default, registering the out-of-domain
override `-1` for `http://h/api` silently returns `None`. -/
theorem C10_witness :
    ({ exSession with cache_expire_after := none } : CachedSession).cache_expire_after
        = none
    ∧ expire_after { exSession with cache_expire_after := none }
        { netloc := "h", path := "/api" } (-1) =
        .ok ({ exSession with cache_expire_after := none }, none) :=
  ⟨rfl, C10_expire_after_noop_without_default _ _ _ (Or.inl rfl)⟩

/-- C8: deletion as the dispatcher sees it is idempotent — deleting twice
does not fail the second time, and deleting an absent key returns the
store unchanged — while the Mongo backend signals the absence internally
by raising `KeyError` (`MongoDict.__delitem__`). -/
theorem C8_delete_idempotent {α : Type} (m : List (String × α)) (k : String) :
    cacheDelete (cacheDelete m k) k = cacheDelete m k
    ∧ (alistGet m k = none → cacheDelete m k = m)
    ∧ mongoDelItem (cacheDelete m k) k = .error .keyError := by
  have habs : alistGet (cacheDelete m k) k = none := by
    rcases h : alistGet m k with _ | v
    · simp [cacheDelete, mongoDelItem, h]
    · simp [cacheDelete, mongoDelItem, h, alistGet_remove_self]
  have herr : mongoDelItem (cacheDelete m k) k = .error .keyError := by
    simp [mongoDelItem, habs]
  refine ⟨?_, ?_, herr⟩
  · show (match mongoDelItem (cacheDelete m k) k with
        | .ok m' => m'
        | .error _ => cacheDelete m k) = cacheDelete m k
    rw [herr]
  · intro h
    simp [cacheDelete, mongoDelItem, h]

/-- Witness for C8: deleting the absent key `"b"` from `[("a", 1)]` leaves
the store unchanged, and deleting `"a"` twice equals deleting it once. -/
theorem C8_witness :
    alistGet [("a", (1 : Nat))] "b" = none
    ∧ cacheDelete [("a", (1 : Nat))] "b" = [("a", 1)]
    ∧ cacheDelete (cacheDelete [("a", (1 : Nat))] "a") "a" =
        cacheDelete [("a", (1 : Nat))] "a" :=
  ⟨by decide, (C8_delete_idempotent [("a", 1)] "b").2.1 (by decide),
   (C8_delete_idempotent [("a", 1)] "a").1⟩

/-- C1 is refuted by the code: `expire_after` resets the host's whole rule
list on every registration (core.py line 167,
`a = self._cache_expire_after_override[p_url.netloc] = []`), so after
registering `/api ↦ 10` and then `/zzz ↦ 20` on host `h`, a lookup for
path `/api/x` no longer sees the `/api` rule and falls back to the global
default `300` instead of the claimed `10`. -/
theorem C1_registration_discards_earlier_host_rules :
    expire_after exSession { netloc := "h", path := "/api" } 10 =
        .ok (exRegSession1, some 10)
    ∧ expire_after exRegSession1 { netloc := "h", path := "/zzz" } 20 =
        .ok (exRegSession2, some 20)
    ∧ lookup_expire_after exRegSession2 { netloc := "h", path := "/api/x" } =
        some 300
    ∧ lookup_expire_after exRegSession2 { netloc := "h", path := "/api/x" } ≠
        some 10 := by
  refine ⟨?_, ?_, ?_, ?_⟩
  · norm_num [expire_after, exSession, exRegSession1, sortRules, alistSet]
  · norm_num [expire_after, exSession, exRegSession1, exRegSession2, sortRules,
      alistSet, alistGet]
  · have h1 : startswith "/api/x" "/zzz" = false := by decide
    norm_num [lookup_expire_after, exSession, exRegSession2, alistGet, h1]
  · have h1 : startswith "/api/x" "/zzz" = false := by decide
    norm_num [lookup_expire_after, exSession, exRegSession2, alistGet, h1]

/-- C4: with a (truthy) global default expiration `d`, `expire_after`
raises exactly when the override is negative or exceeds `d` and otherwise
returns the accepted value; `throttle` raises exactly when the rate lies
outside `[0, 1000]` and otherwise returns the accepted value.  Values are
never clamped: rejection is an exception, acceptance returns the value
unchanged. -/
theorem C4_registration_validates (s : CachedSession) (url : Url) (d : ℚ)
    (hd : s.cache_expire_after = some d) (hd0 : d ≠ 0) :
    (∀ v : ℚ,
      ((v < 0 ∨ v > d) → expire_after s url v = .error .valueError)
      ∧ (¬(v < 0 ∨ v > d) → ∃ s', expire_after s url v = .ok (s', some v)))
    ∧ (∀ r : ℚ,
      ((r < 0 ∨ r > 1000) → throttle s url r = .error .valueError)
      ∧ (¬(r < 0 ∨ r > 1000) → ∃ s', throttle s url r = .ok (s', r))) := by
  constructor
  · intro v
    constructor
    · intro hv
      have hc : v > d ∨ v < 0 := hv.elim Or.inr Or.inl
      simp [expire_after, hd, hd0, hc]
    · intro hv
      have hc : ¬(v > d ∨ v < 0) := fun hh => hv (hh.elim Or.inr Or.inl)
      refine ⟨{ s with
          cache_expire_after_override := alistSet s.cache_expire_after_override
            url.netloc (sortRules [(url.path, v)]) }, ?_⟩
      simp [expire_after, hd, hd0, hc]
  · intro r
    constructor
    · intro hr
      simp [throttle, hr]
    · intro hr
      refine ⟨{ s with
          cache_throttle := alistSet s.cache_throttle url.netloc
            (sortRules [(url.path, r)]) }, ?_⟩
      simp [throttle, hr]

/-- Witness for C4: with default 300, the overrides `-1` and `301` and the
throttle rate `1001` are rejected, while the override `10` is accepted and
returned. -/
theorem C4_witness :
    expire_after exSession { netloc := "h", path := "/api" } (-1) =
        .error .valueError
    ∧ expire_after exSession { netloc := "h", path := "/api" } 301 =
        .error .valueError
    ∧ throttle exSession { netloc := "h", path := "/api" } 1001 =
        .error .valueError
    ∧ expire_after exSession { netloc := "h", path := "/api" } 10 =
        .ok (exRegSession1, some 10) := by
  have h := C4_registration_validates exSession { netloc := "h", path := "/api" }
      300 rfl (by norm_num)
  exact ⟨(h.1 (-1)).1 (by norm_num), (h.1 301).1 (by norm_num),
         (h.2 1001).1 (by norm_num),
         by norm_num [expire_after, exSession, exRegSession1, sortRules, alistSet]⟩

/-- C7: prefix matching is purely lexical.  After registering a throttle
rule (or, with a truthy default, an expiration override) for a URL with
path `p`, every request URL on the same host whose path has `p` as a
string prefix — path-segment boundaries ignored, e.g. `/api` matching
`/api2/foo` — resolves to that rule's value. -/
theorem C7_prefix_matching_is_lexical :
    (∀ (s0 : CachedSession) (urlReg url' : Url) (rps rv : ℚ)
        (s1 : CachedSession),
      throttle s0 urlReg rps = .ok (s1, rv) →
      url'.netloc = urlReg.netloc →
      startswith url'.path urlReg.path = true →
      lookup_throttle s1 url' = some rps)
    ∧ (∀ (s0 : CachedSession) (urlReg url' : Url) (v d : ℚ)
        (s1 : CachedSession) (rv : Option ℚ),
      s0.cache_expire_after = some d → d ≠ 0 →
      expire_after s0 urlReg v = .ok (s1, rv) →
      url'.netloc = urlReg.netloc →
      startswith url'.path urlReg.path = true →
      lookup_expire_after s1 url' = some v) := by
  constructor
  · intro s0 urlReg url' rps rv s1 hreg hnet hpre
    rw [throttle] at hreg
    split at hreg
    · exact absurd hreg (by simp)
    · rw [Except.ok.injEq, Prod.mk.injEq] at hreg
      obtain ⟨hs1, -⟩ := hreg
      rw [← hs1]
      simp [lookup_throttle, hnet, alistGet_set_self, sortRules_singleton,
        List.find?, hpre]
  · intro s0 urlReg url' v d s1 rv hd hd0 hreg hnet hpre
    simp only [expire_after, hd, if_neg hd0] at hreg
    split at hreg
    · exact absurd hreg (by simp)
    · rw [Except.ok.injEq, Prod.mk.injEq] at hreg
      obtain ⟨hs1, -⟩ := hreg
      rw [← hs1]
      simp [lookup_expire_after, hd, hd0, hnet, alistGet_set_self,
        sortRules_singleton, List.find?, hpre]

/-- Witness for C7: a throttle rule registered for `http://h/api` at rate 2
is selected for the request path `/api2/foo`, which `/api` lexically
prefixes although `/api2` is a different path segment. -/
theorem C7_witness :
    throttle exSession { netloc := "h", path := "/api" } 2 =
        .ok (exThrottleSession, 2)
    ∧ startswith "/api2/foo" "/api" = true
    ∧ lookup_throttle exThrottleSession { netloc := "h", path := "/api2/foo" } =
        some 2 := by
  have hreg : throttle exSession { netloc := "h", path := "/api" } 2 =
      .ok (exThrottleSession, 2) := by
    norm_num [throttle, exSession, exThrottleSession, sortRules, alistSet]
  exact ⟨hreg, by decide,
    C7_prefix_matching_is_lexical.1 exSession { netloc := "h", path := "/api" }
      { netloc := "h", path := "/api2/foo" } 2 2 exThrottleSession hreg rfl
      (by decide)⟩

/-- C6: when the backend's `get_response_and_time` raises a
`StorageFailure` during `send`, that failure propagates unchanged to the
caller; the result does not depend on the transport's response at all (the
transport is never invoked) and the failure is never converted into a
cache miss. -/
theorem C6_storage_failure_propagates {σ κ : Type} (s : CachedSession)
    (c : Cache σ κ) (st : σ) (req : Request) (now : ℚ) (f : StorageFailure)
    (hd : s.is_cache_disabled = false) (hm : req.method ∈ s.allowable_methods)
    (hfail : c.get_response_and_time st (c.create_key req) = .error f) :
    ∀ tr : Response, send s c st req tr now = .error f := by
  intro tr
  simp [send, hd, hm, hfail]

/-- Witness for C6: a backend whose `get` fails with
`StorageFailure "backend down"` makes `send` fail with exactly that
failure. -/
theorem C6_witness :
    exSession.is_cache_disabled = false
    ∧ exReq.method ∈ exSession.allowable_methods
    ∧ exFailCache.get_response_and_time exStore (exFailCache.create_key exReq) =
        .error { msg := "backend down" }
    ∧ send exSession exFailCache exStore exReq exTransportResp 0 =
        .error { msg := "backend down" } :=
  ⟨rfl, by simp [exSession, exReq], rfl,
   C6_storage_failure_propagates exSession exFailCache exStore exReq 0
     { msg := "backend down" } rfl (by simp [exSession, exReq]) rfl
     exTransportResp⟩

/-- C5: on the miss path of `send`, the dispatcher sleeps exactly
`1 / rate` seconds when the resolved throttle rate is present and
positive and does not sleep when it is absent or zero; the transport is
invoked, its response is stored iff its status code is in the
allowable-status set, and it is returned marked not-from-cache in every
case. -/
theorem C5_miss_path {κ : Type} [DecidableEq κ] (s : CachedSession)
    (ck : Request → κ) (snow : ℚ) (st : Store κ) (req : Request)
    (tr : Response) (now : ℚ)
    (hd : s.is_cache_disabled = false) (hm : req.method ∈ s.allowable_methods)
    (hmiss : st.lookup (ck req) = none) :
    ∃ o : SendOutcome (Store κ),
      send s (specCache ck snow) st req tr now = .ok o
      ∧ o.transport_invoked = true
      ∧ o.from_cache = false
      ∧ o.response = tr
      ∧ (∀ rps : ℚ, lookup_throttle s req.url = some rps → rps > 0 →
          o.waited = 1 / rps)
      ∧ ((lookup_throttle s req.url = none ∨ lookup_throttle s req.url = some 0)
          → o.waited = 0)
      ∧ (tr.status_code ∈ s.allowable_codes → o.store = st.put (ck req) tr snow)
      ∧ (tr.status_code ∉ s.allowable_codes → o.store = st) := by
  refine ⟨send_request_and_cache_response s (specCache ck snow) st (ck req) req tr,
    ?_, rfl, rfl, rfl, ?_, ?_, ?_, ?_⟩
  · simp [send, hd, hm, specCache, hmiss]
  · intro rps hrps hpos
    simp [send_request_and_cache_response, wait_for_throttle, hrps, hpos]
  · rintro (h | h) <;>
      simp [send_request_and_cache_response, wait_for_throttle, h]
  · intro hcode
    simp [send_request_and_cache_response, specCache, hcode]
  · intro hcode
    simp [send_request_and_cache_response, specCache, hcode]

/-- Witness for C5: with a throttle rule of 2 requests/second on
`http://h/api`, a miss for `http://h/api/x` waits `1/2` second, invokes
the transport, and stores the 200 response. -/
theorem C5_witness :
    lookup_throttle exThrottleSession exReq.url = some 2
    ∧ exEmptyStore.lookup (exCk exReq) = none
    ∧ send exThrottleSession (specCache exCk 0) exEmptyStore exReq
        exTransportResp 0 =
        .ok { response := exTransportResp, from_cache := false,
              store := exEmptyStore.put (exCk exReq) exTransportResp 0,
              waited := 1 / 2, transport_invoked := true } := by
  have hth : lookup_throttle exThrottleSession exReq.url = some 2 := by
    have hp : startswith "/api/x" "/api" = true := by decide
    simp [lookup_throttle, exThrottleSession, exSession, exReq, alistGet,
      List.find?, hp]
  have hmiss : exEmptyStore.lookup (exCk exReq) = none := by
    simp [exEmptyStore, Store.lookup, Store.resolve_alias, alistGet]
  obtain ⟨o, hsend, hti, hfc, hresp, hw, _hw0, hput, _hnoput⟩ :=
    C5_miss_path exThrottleSession exCk 0 exEmptyStore exReq exTransportResp 0
      rfl (by simp [exThrottleSession, exSession, exReq]) hmiss
  have ho : o = { response := exTransportResp, from_cache := false,
                  store := exEmptyStore.put (exCk exReq) exTransportResp 0,
                  waited := 1 / 2, transport_invoked := true } := by
    obtain ⟨ore, ofc, ost, ow, oti⟩ := o
    simp only at hti hfc hresp
    have hw2 := hw 2 hth (by norm_num)
    have hput2 := hput (by simp [exTransportResp, exThrottleSession, exSession])
    simp only at hw2 hput2
    simp [hti, hfc, hresp, hw2, hput2]
  exact ⟨hth, hmiss, ho ▸ hsend⟩

/-- C2: on a cache hit, when the resolved expiration policy is absent the
entry is served as fresh; with resolved expiration `E` and entry stored at
`t0`, the entry is served from cache (marked `from_cache`) whenever
`now - t0 ≤ E`, while whenever `now - t0 > E` the entry is deleted from
the store and the request proceeds as a miss with the transport invoked. -/
theorem C2_hit_freshness {κ : Type} [DecidableEq κ] (s : CachedSession)
    (ck : Request → κ) (snow : ℚ) (st : Store κ) (req : Request)
    (r : Response) (t0 now : ℚ)
    (hd : s.is_cache_disabled = false) (hm : req.method ∈ s.allowable_methods)
    (hget : st.lookup (ck req) = some (r, t0)) :
    (lookup_expire_after s req.url = none →
      ∀ tr : Response, send s (specCache ck snow) st req tr now =
        .ok { response := r, from_cache := true, store := st, waited := 0,
              transport_invoked := false })
    ∧ ∀ E : ℚ, lookup_expire_after s req.url = some E →
      (now - t0 ≤ E →
        ∀ tr : Response, send s (specCache ck snow) st req tr now =
          .ok { response := r, from_cache := true, store := st, waited := 0,
                transport_invoked := false })
      ∧ (now - t0 > E →
        ∀ tr : Response,
          send s (specCache ck snow) st req tr now =
            .ok (send_request_and_cache_response s (specCache ck snow)
                  (st.erase (ck req)) (ck req) req tr)
          ∧ (send_request_and_cache_response s (specCache ck snow)
              (st.erase (ck req)) (ck req) req tr).from_cache = false
          ∧ (send_request_and_cache_response s (specCache ck snow)
              (st.erase (ck req)) (ck req) req tr).transport_invoked = true) := by
  constructor
  · intro hnone tr
    simp [send, hd, hm, specCache, hget, hnone]
  · intro E hE
    constructor
    · intro hle tr
      simp [send, hd, hm, specCache, hget, hE, if_neg (not_lt.mpr hle)]
    · intro hgt tr
      refine ⟨?_, rfl, rfl⟩
      simp [send, hd, hm, specCache, hget, hE, if_pos hgt, Store.erase]

/-- Witness for C2: with default expiration 300 and an entry stored at
time 0, a hit at time 100 (age ≤ 300) is served from cache with the store
untouched and the transport not invoked. -/
theorem C2_witness :
    exStore.lookup (exCk exReq) = some (exStoredResp, 0)
    ∧ lookup_expire_after exSession exReq.url = some 300
    ∧ (100 : ℚ) - 0 ≤ 300
    ∧ send exSession (specCache exCk 100) exStore exReq exTransportResp 100 =
        .ok { response := exStoredResp, from_cache := true, store := exStore,
              waited := 0, transport_invoked := false } := by
  have hget : exStore.lookup (exCk exReq) = some (exStoredResp, 0) := by
    simp [exStore, Store.lookup, Store.resolve_alias, alistGet, exCk, exReq]
  have hE : lookup_expire_after exSession exReq.url = some 300 := by
    norm_num [lookup_expire_after, exSession, alistGet]
  refine ⟨hget, hE, by norm_num, ?_⟩
  exact ((C2_hit_freshness exSession exCk 100 exStore exReq exStoredResp 0 100
      rfl (by simp [exSession, exReq]) hget).2 300 hE).1 (by norm_num)
    exTransportResp

/-- C3: after a completed dispatch whose response carries the redirect
history `[A, B]` with final request `C` (and caching not disabled), the
key of each intermediate request is registered as an alias of the final
request's key, so a lookup via `A`'s or `B`'s key resolves to the same
stored entry as a lookup via `C`'s key.  (The intermediate keys are
assumed distinct from the final key and the final key unaliased before
the dispatch, as redirect chains produce.) -/
theorem C3_redirect_aliasing {κ : Type} [DecidableEq κ] (s : CachedSession)
    (ck : Request → κ) (snow : ℚ) (st st' : Store κ) (resp : Response)
    (A B : HistoryItem)
    (hd : s.is_cache_disabled = false)
    (hhist : resp.history = [A, B])
    (hA : ck A.request ≠ ck resp.request)
    (hB : ck B.request ≠ ck resp.request)
    (hC : alistGet st.keys_map (ck resp.request) = none)
    (hst : st' = request s (specCache ck snow) st resp) :
    st'.lookup (ck A.request) = st'.lookup (ck resp.request)
    ∧ st'.lookup (ck B.request) = st'.lookup (ck resp.request) := by
  subst hst
  have hreq : request s (specCache ck snow) st resp =
      ((st.add_alias (ck A.request) (ck resp.request)).add_alias
        (ck B.request) (ck resp.request)) := by
    simp [request, hd, hhist, specCache]
  rw [hreq]
  set a := ck A.request with ha
  set b := ck B.request with hb
  set cKey := ck resp.request with hc
  have hkm : ((st.add_alias a cKey).add_alias b cKey).keys_map =
      alistSet (alistSet st.keys_map a cKey) b cKey := rfl
  have hresp : ((st.add_alias a cKey).add_alias b cKey).responses =
      st.responses := rfl
  have hgetA : alistGet (alistSet (alistSet st.keys_map a cKey) b cKey) a =
      some cKey := by
    by_cases hba : b = a
    · rw [hba, alistGet_set_self]
    · rw [alistGet_set_ne _ _ _ _ (Ne.symm hba), alistGet_set_self]
  have hgetB : alistGet (alistSet (alistSet st.keys_map a cKey) b cKey) b =
      some cKey := alistGet_set_self _ _ _
  have hgetC : alistGet (alistSet (alistSet st.keys_map a cKey) b cKey) cKey =
      none := by
    rw [alistGet_set_ne _ _ _ _ (Ne.symm hB), alistGet_set_ne _ _ _ _ (Ne.symm hA)]
    exact hC
  constructor
  · simp [Store.lookup, Store.resolve_alias, hkm, hresp, hgetA, hgetC]
  · simp [Store.lookup, Store.resolve_alias, hkm, hresp, hgetB, hgetC]

/-- Witness for C3: dispatching the redirect chain
`/start → /hop → /final` on host `h` registers `/start` and `/hop` as
aliases of `/final`, and a lookup through either alias returns the entry
stored for `/final`. -/
theorem C3_witness :
    request exSession (specCache exCk 0) exRedirStore exRedirResp =
        exAliasedStore
    ∧ exAliasedStore.lookup (exCk exHopA.request) =
        exAliasedStore.lookup (exCk exRedirResp.request)
    ∧ exAliasedStore.lookup (exCk exHopB.request) =
        exAliasedStore.lookup (exCk exRedirResp.request)
    ∧ exAliasedStore.lookup (exCk exHopA.request) = some (exRedirResp, 0) := by
  have hreq : request exSession (specCache exCk 0) exRedirStore exRedirResp =
      exAliasedStore := rfl
  have h := C3_redirect_aliasing exSession exCk 0 exRedirStore exAliasedStore
    exRedirResp exHopA exHopB rfl rfl (by decide) (by decide) rfl hreq.symm
  refine ⟨hreq, h.1, h.2, ?_⟩
  simp [exAliasedStore, Store.lookup, Store.resolve_alias, alistGet, exCk,
    exHopA, exRedirResp]

end RequestsCache
